import Mathlib

/-!
Shallow embedding of the deduplicating periodic broadcast scheduler of
`src/main.py` (class `NewsBot`) together with the interval constants of
`src/config.py`.

Modelling conventions:
* Python strings are modelled as `List Char` (`Str`): `len` is `List.length`,
  slicing `s[:n]` is `List.take n`, `str.strip()` is `pyStrip`.
* The md5 primitive inside `create_news_hash` is not computable here, so the
  hash is a parameter `hash : Str → Str`; everything around it (the
  `f"{title}_{description}"[:100]` prefix) is embedded literally.
* A Python `set` of fingerprints is modelled by the list of its elements in
  insertion order together with an enumeration parameter
  `ord : List Str → List Str` standing for `list(s)`: CPython enumerates a
  `set` in implementation-defined hash order, so `ord` is only promised to be
  a permutation of the elements.  All behaviours of the source are instances
  of some `ord`.
* The external HTTP layer is a value of `FetchResponse`, the Telegram send
  primitives are per-destination boolean outcomes carried with the
  destination list, and `time.time()` readings are the `Nat` inputs of the
  scheduler model.
-/

set_option linter.unusedVariables false

abbrev Str := List Char

/-- Python `str.strip()`: drop whitespace at both ends. -/
def pyStrip (s : Str) : Str :=
  ((s.dropWhile Char.isWhitespace).reverse.dropWhile Char.isWhitespace).reverse

/-- `NewsBot.create_news_hash`: md5 over the first 100 characters of
`f"{title}_{description}"`; the md5 digest itself is the parameter `hash`. -/
def create_news_hash (hash : Str → Str) (title desc : Str) : Str :=
  hash ((title ++ ['_'] ++ desc).take 100)

/-- One entry of the JSON article arrays (`data["data"]` / `data["articles"]`).
`none` in a field means the key is absent, matching `article.get(key, default)`. -/
structure RawArticle where
  title : Option Str
  description : Option Str
  url : Option Str
  thumb2x : Option Str
  urlToImage : Option Str
  deriving DecidableEq

def strippedTitle (a : RawArticle) : Str := pyStrip (a.title.getD [])

def strippedDesc (a : RawArticle) : Str := pyStrip (a.description.getD [])

/-- `"[Removed]"`, the placeholder description NewsAPI uses for pulled articles. -/
def removedMarker : Str := "[Removed]".data

/-- The `continue` filter at the top of both scan loops:
`if not title or not desc (or desc == "[Removed]"): continue`.
`checkRemoved` is true for the sports loop only. -/
def skipsArticle (checkRemoved : Bool) (a : RawArticle) : Prop :=
  strippedTitle a = [] ∨ strippedDesc a = [] ∨
    (checkRemoved = true ∧ strippedDesc a = removedMarker)

instance (c : Bool) (a : RawArticle) : Decidable (skipsArticle c a) := by
  unfold skipsArticle; infer_instance

/-- The fingerprint the loops compute for a candidate (`news_hash`). -/
def articleHash (hash : Str → Str) (a : RawArticle) : Str :=
  create_news_hash hash (strippedTitle a) (strippedDesc a)

/-- Lines 100-101 / 167-168: `if len(posted) > 20: posted = set(list(posted)[-20:])`.
`ord` models the implementation-defined enumeration `list(posted)`. -/
def trimPosted (ord : List Str → List Str) (posted : List Str) : List Str :=
  if posted.length > 20 then (ord posted).drop ((ord posted).length - 20) else posted

/-- Lines 97-101 / 164-168: `posted.add(news_hash)` followed by the trim. -/
def recordFingerprint (ord : List Str → List Str) (posted : List Str) (h : Str) : List Str :=
  trimPosted ord (posted ++ [h])

/-- The selection part of the scan loops (lines 82-97 / 149-164): walk the
candidates in source order, skip invalid entries and already-posted
fingerprints, and stop at the first fresh one, recording its fingerprint. -/
def scanSelect (hash : Str → Str) (ord : List Str → List Str) (checkRemoved : Bool) :
    List RawArticle → List Str → Option RawArticle × List Str
  | [], posted => (none, posted)
  | a :: rest, posted =>
    if skipsArticle checkRemoved a then
      scanSelect hash ord checkRemoved rest posted
    else if articleHash hash a ∈ posted then
      scanSelect hash ord checkRemoved rest posted
    else
      (some a, recordFingerprint ord posted (articleHash hash a))

def ellipsisMark : Str := "...".data

def boldMark : Str := "**".data

def nlnl : Str := "\n\n".data

def readMoreOpen : Str := "[📖 Read Full Article](".data

def readMoreClose : Str := ")\n\n".data

def clockMark : Str := "🕒 ".data

def cryptoHeader : Str := "🚀 **Crypto News Update** 🚀\n\n".data

def sportsHeader : Str := "⚽ **Sports News Update** ⚽\n\n".data

/-- Lines 104-105 / 171-172: `if len(desc) > 250: desc = desc[:250] + "..."`. -/
def truncateDesc (desc : Str) : Str :=
  if desc.length > 250 then desc.take 250 ++ ellipsisMark else desc

/-- Lines 103-117 / 170-184: build the message and pick the image for the
selected article.  `imageField` is `thumb_2x` for crypto, `urlToImage` for
sports; `defaultImage` is the `self.get_image_url(...)` pool choice used when
the key is absent; `timeStr` is the `datetime.now().strftime` reading. -/
def renderArticle (header timeStr : Str) (imageField : RawArticle → Option Str)
    (defaultImage : Option Str) (a : RawArticle) : Str × Option Str :=
  let desc := truncateDesc (strippedDesc a)
  let link := a.url.getD []
  let image := match imageField a with
    | some v => some v
    | none => defaultImage
  (header ++ boldMark ++ strippedTitle a ++ boldMark ++ nlnl ++ desc ++ nlnl ++
      (if link = [] then [] else readMoreOpen ++ link ++ readMoreClose) ++
      clockMark ++ timeStr,
    image)

/-- `resp.json()` either raises (`malformed`) or parses to a value. -/
inductive Payload (α : Type) where
  | malformed
  | parsed (val : α)
  deriving DecidableEq

/-- Outcome of `requests.get`: a raised transport error (timeout included) or a
status code plus body. -/
inductive FetchResponse (α : Type) where
  | transportError
  | response (status : Nat) (body : Payload α)
  deriving DecidableEq

/-- `NewsBot.fetch_crypto_news` (lines 71-132).  The payload carries
`data["data"]` when `data` is truthy and the key is present (`none` otherwise).
Returns the optional `(message, image_url)` pair and the updated posted set. -/
def fetch_crypto_news (hash : Str → Str) (ord : List Str → List Str)
    (resp : FetchResponse (Option (List RawArticle))) (timeStr : Str)
    (poolImage : Option Str) (posted : List Str) :
    Option (Str × Option Str) × List Str :=
  match resp with
  | .transportError => (none, posted)
  | .response status body =>
    if status = 200 then
      match body with
      | .malformed => (none, posted)
      | .parsed none => (none, posted)
      | .parsed (some articles) =>
        if articles.length > 0 then
          match scanSelect hash ord false articles posted with
          | (some a, posted') =>
            (some (renderArticle cryptoHeader timeStr (fun x => x.thumb2x) poolImage a), posted')
          | (none, posted') => (none, posted')
        else (none, posted)
    else (none, posted)

/-- `NewsBot.fetch_sports_news` (lines 134-198).  `apiKeyConfigured` is the
truthiness of `NEWS_API_KEY`; the payload carries `data["articles"]` when the
key is present. -/
def fetch_sports_news (hash : Str → Str) (ord : List Str → List Str)
    (apiKeyConfigured : Bool) (resp : FetchResponse (Option (List RawArticle)))
    (timeStr : Str) (poolImage : Option Str) (posted : List Str) :
    Option (Str × Option Str) × List Str :=
  if apiKeyConfigured = false then (none, posted)
  else
    match resp with
    | .transportError => (none, posted)
    | .response status body =>
      if status = 200 then
        match body with
        | .malformed => (none, posted)
        | .parsed none => (none, posted)
        | .parsed (some articles) =>
          if articles.length > 0 then
            match scanSelect hash ord true articles posted with
            | (some a, posted') =>
              (some (renderArticle sportsHeader timeStr (fun x => x.urlToImage) poolImage a), posted')
            | (none, posted') => (none, posted')
          else (none, posted)
      else (none, posted)

/-- Observable events of one run of `_send_to_all_groups`:
a `send_photo` attempt, a `send_message` attempt, or an `asyncio.sleep`. -/
inductive SendEvent where
  | attemptPhoto (dest : Int)
  | attemptText (dest : Int)
  | sleepSec (n : Nat)
  deriving DecidableEq

/-- `NewsBot._send_to_all_groups` (lines 237-283).  Each destination carries
the environment's outcome for its sends: `pOk` is whether the first send (the
photo when an image is present, the plain text otherwise) succeeds, `fOk`
whether the text-only fallback would succeed.  `img` is the truthiness of
`image_url`.  Returns `success_count` and the event trace in order. -/
def sendToAllGroups (img : Bool) : List (Int × Bool × Bool) → Nat × List SendEvent
  | [] => (0, [])
  | (d, pOk, fOk) :: rest =>
    let tail := sendToAllGroups img rest
    if img then
      if pOk then
        (tail.1 + 1, SendEvent.attemptPhoto d :: SendEvent.sleepSec 1 :: tail.2)
      else if fOk then
        (tail.1 + 1, SendEvent.attemptPhoto d :: SendEvent.attemptText d :: tail.2)
      else
        (tail.1, SendEvent.attemptPhoto d :: SendEvent.attemptText d :: tail.2)
    else
      if pOk then
        (tail.1 + 1, SendEvent.attemptText d :: SendEvent.sleepSec 1 :: tail.2)
      else
        (tail.1, SendEvent.attemptText d :: tail.2)

def destOfAttempt : SendEvent → Option Int
  | SendEvent.attemptPhoto d => some d
  | SendEvent.attemptText d => some d
  | SendEvent.sleepSec _ => none

def isSleepEvent : SendEvent → Bool
  | SendEvent.sleepSec _ => true
  | _ => false

/-- Formalisation of the pacing contract: in the trace, two adjacent send
attempts never target different destinations — a delay (or the same
destination's fallback) always sits between successive destinations. -/
def pacedDispatchTrace : List SendEvent → Bool
  | [] => true
  | [_] => true
  | e1 :: e2 :: rest =>
    (match destOfAttempt e1, destOfAttempt e2 with
      | some d1, some d2 => d1 == d2
      | _, _ => true) && pacedDispatchTrace (e2 :: rest)

/-- Python truthiness of the `image_url` argument. -/
def imgTruthy : Option Str → Bool
  | none => false
  | some s => !s.isEmpty

/-- `NewsBot.post_crypto_news` (lines 201-217): fetch, then dispatch either the
article message or the fallback message.  Returns the delivered count, the
dispatch trace and the posted set after the cycle. -/
def post_crypto_news (hash : Str → Str) (ord : List Str → List Str)
    (resp : FetchResponse (Option (List RawArticle))) (timeStr : Str)
    (poolImage fallbackImage : Option Str) (posted : List Str)
    (dests : List (Int × Bool × Bool)) : Nat × List SendEvent × List Str :=
  match fetch_crypto_news hash ord resp timeStr poolImage posted with
  | (some mi, posted') =>
    let r := sendToAllGroups (imgTruthy mi.2) dests
    (r.1, r.2, posted')
  | (none, posted') =>
    let r := sendToAllGroups (imgTruthy fallbackImage) dests
    (r.1, r.2, posted')

/-- `CRYPTO_INTERVAL` of `src/config.py` (minutes). -/
def CRYPTO_INTERVAL : Nat := 60

/-- `SPORTS_INTERVAL` of `src/config.py` (minutes). -/
def SPORTS_INTERVAL : Nat := 30

/-- The two `last_*` variables of `start_scheduler` (initialised to 0). -/
structure SchedState where
  lastCrypto : Nat
  lastSports : Nat
  deriving DecidableEq

inductive FireEvent where
  | cryptoAt (t : Nat)
  | sportsAt (t : Nat)
  deriving DecidableEq

/-- One iteration of the `while self.running` loop (lines 300-314) at wall
clock `t` (`time.time()`), returning the posts fired on this tick and the
updated `last_*` state. -/
def schedTick (t : Nat) (s : SchedState) : List FireEvent × SchedState :=
  let fireC := CRYPTO_INTERVAL * 60 ≤ t - s.lastCrypto
  let s1 := if fireC then SchedState.mk t s.lastSports else s
  let fireS := SPORTS_INTERVAL * 60 ≤ t - s1.lastSports
  let s2 := if fireS then SchedState.mk s1.lastCrypto t else s1
  ((if fireC then [FireEvent.cryptoAt t] else []) ++
     (if fireS then [FireEvent.sportsAt t] else []),
   s2)

def schedLoop : List Nat → SchedState → List FireEvent
  | [], _ => []
  | t :: ts, s =>
    let step := schedTick t s
    step.1 ++ schedLoop ts step.2

/-- `NewsBot.start_scheduler` (lines 286-314): the unconditional initial posts
(crypto at startup time `t0`, sports after the 10-second sleep) followed by the
tick loop with `last_crypto = last_sports = 0`.  `ticks` is the sequence of
`time.time()` readings of the loop iterations. -/
def start_scheduler (t0 : Nat) (ticks : List Nat) : List FireEvent :=
  FireEvent.cryptoAt t0 :: FireEvent.sportsAt (t0 + 10) ::
    schedLoop ticks (SchedState.mk 0 0)

/-! Concrete inputs used to evaluate the model at specific points. -/

/-- A concrete digest function (the model is parametric in the md5 digest). -/
def wHash : Str → Str := fun s => s

/-- A concrete set-enumeration (identity: enumeration in insertion order). -/
def wOrd : List Str → List Str := fun l => l

def wArtA : RawArticle :=
  ⟨some "alpha".data, some "first description".data, none, none, none⟩

def wArtB : RawArticle :=
  ⟨some "beta".data, some "second description".data, some "u".data, none, none⟩

/-- A candidate whose title strips to the empty string. -/
def wArtBad : RawArticle :=
  ⟨some "   ".data, some "x".data, none, none, none⟩

/-- A candidate with a 251-character description. -/
def wLongArt : RawArticle :=
  ⟨some "t".data, some (List.replicate 251 'a'), none, none, none⟩

def wPostedA : List Str := [articleHash wHash wArtA]

def wResp : FetchResponse (Option (List RawArticle)) :=
  FetchResponse.response 200 (Payload.parsed (some [wArtB]))

/-- Twenty distinct fingerprints inserted in order: the oldest is `c2oldest`. -/
def c2posted : List Str := (List.range 20).map (fun i => [Char.ofNat (65 + i)])

def c2newFp : Str := ['U']

def c2oldest : Str := ['A']

/-! Helper lemmas about the scan loop. -/

theorem scanSelect_all_skip (hash : Str → Str) (ord : List Str → List Str) (cr : Bool)
    (cs : List RawArticle) (posted : List Str)
    (h : ∀ a ∈ cs, skipsArticle cr a ∨ articleHash hash a ∈ posted) :
    scanSelect hash ord cr cs posted = (none, posted) := by
  induction cs with
  | nil => rfl
  | cons a rest ih =>
    have ha := h a (List.mem_cons_self _ _)
    have ih' := ih (fun b hb => h b (List.mem_cons_of_mem _ hb))
    by_cases hs : skipsArticle cr a
    · simp [scanSelect, hs, ih']
    · have hm : articleHash hash a ∈ posted := ha.resolve_left hs
      simp [scanSelect, hs, hm, ih']

theorem scanSelect_first_fresh (hash : Str → Str) (ord : List Str → List Str) (cr : Bool)
    (pre : List RawArticle) (a : RawArticle) (post : List RawArticle) (posted : List Str)
    (hpre : ∀ b ∈ pre, skipsArticle cr b ∨ articleHash hash b ∈ posted)
    (hsa : ¬ skipsArticle cr a) (hfresh : articleHash hash a ∉ posted) :
    scanSelect hash ord cr (pre ++ a :: post) posted =
      (some a, recordFingerprint ord posted (articleHash hash a)) := by
  induction pre with
  | nil => simp [scanSelect, hsa, hfresh]
  | cons b pres ih =>
    have hb := hpre b (List.mem_cons_self _ _)
    have ih' := ih (fun c hc => hpre c (List.mem_cons_of_mem _ hc))
    by_cases hs : skipsArticle cr b
    · simpa [scanSelect, hs] using ih'
    · have hm : articleHash hash b ∈ posted := hb.resolve_left hs
      simpa [scanSelect, hs, hm] using ih'

theorem scanSelect_cases (hash : Str → Str) (ord : List Str → List Str) (cr : Bool)
    (cs : List RawArticle) (posted : List Str) :
    scanSelect hash ord cr cs posted = (none, posted) ∨
      ∃ b, b ∈ cs ∧ ¬ skipsArticle cr b ∧ articleHash hash b ∉ posted ∧
        scanSelect hash ord cr cs posted =
          (some b, recordFingerprint ord posted (articleHash hash b)) := by
  induction cs with
  | nil => left; rfl
  | cons a rest ih =>
    by_cases hs : skipsArticle cr a
    · rcases ih with h | ⟨b, hb, h1, h2, h3⟩
      · left; simp [scanSelect, hs, h]
      · right
        exact ⟨b, List.mem_cons_of_mem _ hb, h1, h2, by simp [scanSelect, hs, h3]⟩
    · by_cases hm : articleHash hash a ∈ posted
      · rcases ih with h | ⟨b, hb, h1, h2, h3⟩
        · left; simp [scanSelect, hs, hm, h]
        · right
          exact ⟨b, List.mem_cons_of_mem _ hb, h1, h2, by simp [scanSelect, hs, hm, h3]⟩
      · right
        exact ⟨a, List.mem_cons_self _ _, hs, hm, by simp [scanSelect, hs, hm]⟩

theorem scanSelect_some (hash : Str → Str) (ord : List Str → List Str) (cr : Bool)
    (cs : List RawArticle) (posted : List Str) (b : RawArticle)
    (h : (scanSelect hash ord cr cs posted).1 = some b) :
    ¬ skipsArticle cr b ∧ articleHash hash b ∉ posted ∧
      (scanSelect hash ord cr cs posted).2 =
        recordFingerprint ord posted (articleHash hash b) := by
  rcases scanSelect_cases hash ord cr cs posted with hc | ⟨c, hcmem, h1, h2, h3⟩
  · rw [hc] at h; cases h
  · rw [h3] at h
    have hcb : c = b := by simpa using h
    subst hcb
    exact ⟨h1, h2, by rw [h3]⟩

theorem recordFingerprint_mem (ord : List Str → List Str) (posted : List Str) (h : Str)
    (hlen : posted.length < 20) : h ∈ recordFingerprint ord posted h := by
  have hno : ¬ ((posted ++ [h]).length > 20) := by
    simp only [List.length_append, List.length_singleton]
    omega
  unfold recordFingerprint trimPosted
  rw [if_neg hno]
  simp

/-! Helper lemmas about the dispatcher. -/

theorem sendCount_eq (img : Bool) (l : List (Int × Bool × Bool)) :
    (sendToAllGroups img l).1 =
      l.countP (fun e => e.2.1 || (!e.2.1 && img && e.2.2)) := by
  induction l with
  | nil => rfl
  | cons e rest ih =>
    obtain ⟨d, p, f⟩ := e
    cases img <;> cases p <;> cases f <;>
      simp [sendToAllGroups, List.countP_cons, ih]

@[simp] theorem isSleepEvent_photo (d : Int) :
    isSleepEvent (SendEvent.attemptPhoto d) = false := rfl

@[simp] theorem isSleepEvent_text (d : Int) :
    isSleepEvent (SendEvent.attemptText d) = false := rfl

@[simp] theorem isSleepEvent_sleep (n : Nat) :
    isSleepEvent (SendEvent.sleepSec n) = true := rfl

theorem sendSleeps_eq (img : Bool) (l : List (Int × Bool × Bool)) :
    (sendToAllGroups img l).2.countP (fun e => isSleepEvent e) =
      l.countP (fun e => e.2.1) := by
  induction l with
  | nil => rfl
  | cons e rest ih =>
    obtain ⟨d, p, f⟩ := e
    cases img <;> cases p <;> cases f <;>
      simp [sendToAllGroups, List.countP_cons, ih]

theorem send_attempts_all (img : Bool) (l : List (Int × Bool × Bool)) :
    ∀ e ∈ l, SendEvent.attemptPhoto e.1 ∈ (sendToAllGroups img l).2 ∨
      SendEvent.attemptText e.1 ∈ (sendToAllGroups img l).2 := by
  induction l with
  | nil => intro e he; cases he
  | cons x rest ih =>
    intro e he
    obtain ⟨d, p, f⟩ := x
    rcases List.mem_cons.mp he with he | he
    · subst he
      cases img <;> cases p <;> cases f <;> simp [sendToAllGroups]
    · have := ih e he
      cases img <;> cases p <;> cases f <;> simp [sendToAllGroups] <;> tauto

theorem paced_cons_sleep (n : Nat) (tr : List SendEvent) :
    pacedDispatchTrace (SendEvent.sleepSec n :: tr) = pacedDispatchTrace tr := by
  cases tr with
  | nil => rfl
  | cons e rest => cases e <;> simp [pacedDispatchTrace, destOfAttempt]

theorem paced_of_all_success (img : Bool) (l : List (Int × Bool × Bool))
    (h : ∀ e ∈ l, e.2.1 = true) :
    pacedDispatchTrace (sendToAllGroups img l).2 = true := by
  induction l with
  | nil => rfl
  | cons x rest ih =>
    obtain ⟨d, p, f⟩ := x
    have hp : p = true := h (d, p, f) (List.mem_cons_self _ _)
    subst hp
    have ih' := ih (fun e he => h e (List.mem_cons_of_mem _ he))
    cases img <;>
      simp [sendToAllGroups, pacedDispatchTrace, destOfAttempt, paced_cons_sleep, ih']

theorem sendToAllGroups_allFail (img : Bool) (ds : List Int) :
    (sendToAllGroups img (ds.map (fun d => (d, false, false)))).1 = 0 := by
  induction ds with
  | nil => rfl
  | cons d rest ih => cases img <;> simp [sendToAllGroups, ih]

/-! Claim theorems. -/

/-- C1: for every fetched candidate list (of normalized candidates, i.e. ones
passing the emptiness filter), the scan walks in source order and selects the
first candidate whose fingerprint is not in the posted set, recording only that
fingerprint; duplicates before it are skipped without being recorded, and when
every candidate is a duplicate (or the list is empty) the scan yields no
content and leaves the posted set unchanged. -/
theorem c1_scan_picks_first_fresh (hash : Str → Str) (ord : List Str → List Str)
    (checkRemoved : Bool) (candidates : List RawArticle) (posted : List Str)
    (hnorm : ∀ a ∈ candidates, ¬ skipsArticle checkRemoved a) :
    ((∀ a ∈ candidates, articleHash hash a ∈ posted) →
        scanSelect hash ord checkRemoved candidates posted = (none, posted)) ∧
    (∀ pre a post, candidates = pre ++ a :: post →
        (∀ b ∈ pre, articleHash hash b ∈ posted) →
        articleHash hash a ∉ posted →
        scanSelect hash ord checkRemoved candidates posted =
          (some a, recordFingerprint ord posted (articleHash hash a))) := by
  constructor
  · intro hdup
    exact scanSelect_all_skip hash ord checkRemoved candidates posted
      (fun a ha => Or.inr (hdup a ha))
  · intro pre a post hsplit hpredup hfresh
    subst hsplit
    exact scanSelect_first_fresh hash ord checkRemoved pre a post posted
      (fun b hb => Or.inr (hpredup b hb)) (hnorm a (by simp)) hfresh

/-- Witness for C1: a concrete duplicate-then-fresh candidate list selects the
second candidate and records exactly its fingerprint. -/
theorem c1_witness :
    scanSelect wHash wOrd false [wArtA, wArtB] wPostedA =
      (some wArtB, recordFingerprint wOrd wPostedA (articleHash wHash wArtB)) :=
  (c1_scan_picks_first_fresh wHash wOrd false [wArtA, wArtB] wPostedA (by decide)).2
    [wArtA] wArtB [] rfl (by decide) (by decide)

/-- C2: evaluating the record operation at a full store of 20 fingerprints plus
a fresh 21st, under the (legitimate, implementation-defined) set enumeration
that lists elements in reverse insertion order: the store is trimmed back to 20
entries, but the entry evicted is the newly inserted fingerprint while the
oldest-inserted one is retained — insertion-order (oldest-first) eviction does
not hold. -/
theorem c2_eviction_not_oldest :
    (List.reverse (c2posted ++ [c2newFp])).Perm (c2posted ++ [c2newFp]) ∧
    (recordFingerprint List.reverse c2posted c2newFp).length = 20 ∧
    c2newFp ∉ recordFingerprint List.reverse c2posted c2newFp ∧
    c2oldest ∈ recordFingerprint List.reverse c2posted c2newFp := by
  refine ⟨List.reverse_perm _, ?_, ?_, ?_⟩ <;> decide

/-- C3 counterexample: with two destinations where the first one's photo send
and text fallback both fail, the second destination's send attempt follows the
first destination's attempts directly, with no pacing delay in between — the
trace is not paced between successive destinations. -/
theorem c3_counterexample :
    (sendToAllGroups true [(10, false, false), (20, true, false)]).2 =
      [SendEvent.attemptPhoto 10, SendEvent.attemptText 10,
       SendEvent.attemptPhoto 20, SendEvent.sleepSec 1] ∧
    pacedDispatchTrace (sendToAllGroups true [(10, false, false), (20, true, false)]).2
      = false := by
  refine ⟨?_, ?_⟩ <;> decide

/-- C3 amended: a 1 time-unit pacing delay is enforced exactly after each
successful primary send (the number of delays equals the number of successful
primary sends), and in a cycle where every primary send succeeds a delay
separates the attempts of every two successive destinations; after a failed
primary send the next destination's attempt begins with no intervening
delay. -/
theorem c3_pacing_after_success (img : Bool) (l : List (Int × Bool × Bool)) :
    (sendToAllGroups img l).2.countP (fun e => isSleepEvent e) =
      l.countP (fun e => e.2.1) ∧
    ((∀ e ∈ l, e.2.1 = true) →
      pacedDispatchTrace (sendToAllGroups img l).2 = true) :=
  ⟨sendSleeps_eq img l, fun h => paced_of_all_success img l h⟩

/-- Witness for the amended C3 at a concrete all-successful dispatch. -/
theorem c3_amended_witness :
    (sendToAllGroups true [(1, true, true), (2, true, false)]).2.countP
        (fun e => isSleepEvent e) =
      [((1 : Int), true, true), ((2 : Int), true, false)].countP (fun e => e.2.1) ∧
    pacedDispatchTrace (sendToAllGroups true [(1, true, true), (2, true, false)]).2
      = true :=
  ⟨(c3_pacing_after_success true [(1, true, true), (2, true, false)]).1,
   (c3_pacing_after_success true [(1, true, true), (2, true, false)]).2 (by decide)⟩

/-- C4: the dispatcher's delivered count equals the number of destinations
whose image send succeeded or whose image send failed but whose text-only
fallback succeeded, and for any image mode the count never exceeds the number
of destinations (it is a `Nat`, hence at least 0). -/
theorem c4_delivered_count (l : List (Int × Bool × Bool)) :
    (sendToAllGroups true l).1 =
      l.countP (fun e => e.2.1 || (!e.2.1 && e.2.2)) ∧
    ∀ img : Bool, (sendToAllGroups img l).1 ≤ l.length := by
  constructor
  · have h := sendCount_eq true l
    simpa using h
  · intro img
    rw [sendCount_eq img l]
    exact List.countP_le_length _

/-- C5: evaluating the scheduler at startup time 1000000 with the first loop
evaluation at time 1000010 (right after the initial posts): each topic fires a
second time only 10 seconds after its initial startup fire — far less than its
interval (3600 s for crypto, 1800 s for sports) — because the `last_*`
variables are left at 0 after the unconditional initial posts. -/
theorem c5_double_fire_at_startup :
    start_scheduler 1000000 [1000010] =
      [FireEvent.cryptoAt 1000000, FireEvent.sportsAt 1000010,
       FireEvent.cryptoAt 1000010, FireEvent.sportsAt 1000010] ∧
    1000010 - 1000000 < CRYPTO_INTERVAL * 60 ∧
    1000010 - (1000000 + 10) < SPORTS_INTERVAL * 60 := by
  refine ⟨?_, by decide, by decide⟩
  decide

/-- C6: whenever the (normalized) description is longer than the 250-character
display budget, the rendered message contains the description cut to exactly
250 characters with the ellipsis marker appended; a description at or under
the budget appears in the message unmodified. -/
theorem c6_truncation (header timeStr : Str) (imageField : RawArticle → Option Str)
    (defaultImage : Option Str) (a : RawArticle) :
    ((strippedDesc a).length > 250 →
      (∃ s t, (renderArticle header timeStr imageField defaultImage a).1 =
          s ++ ((strippedDesc a).take 250 ++ ellipsisMark) ++ t) ∧
      ((strippedDesc a).take 250).length = 250) ∧
    ((strippedDesc a).length ≤ 250 →
      ∃ s t, (renderArticle header timeStr imageField defaultImage a).1 =
        s ++ strippedDesc a ++ t) := by
  constructor
  · intro hlong
    constructor
    · refine ⟨header ++ boldMark ++ strippedTitle a ++ boldMark ++ nlnl,
        nlnl ++ (if a.url.getD [] = [] then []
          else readMoreOpen ++ a.url.getD [] ++ readMoreClose) ++
          clockMark ++ timeStr, ?_⟩
      simp [renderArticle, truncateDesc, hlong, List.append_assoc]
    · simp only [List.length_take]
      omega
  · intro hshort
    have hno : ¬ ((strippedDesc a).length > 250) := by omega
    refine ⟨header ++ boldMark ++ strippedTitle a ++ boldMark ++ nlnl,
      nlnl ++ (if a.url.getD [] = [] then []
        else readMoreOpen ++ a.url.getD [] ++ readMoreClose) ++
        clockMark ++ timeStr, ?_⟩
    simp [renderArticle, truncateDesc, hno, List.append_assoc]

set_option maxRecDepth 20000 in
/-- Witness for C6 at a concrete 251-character description. -/
theorem c6_witness :
    (∃ s t, (renderArticle cryptoHeader [] (fun x => x.thumb2x) none wLongArt).1 =
        s ++ ((strippedDesc wLongArt).take 250 ++ ellipsisMark) ++ t) ∧
    ((strippedDesc wLongArt).take 250).length = 250 :=
  (c6_truncation cryptoHeader [] (fun x => x.thumb2x) none wLongArt).1 (by decide)

/-- C7: a destination whose sends all fail does not abort the cycle — every
destination in the list (the failing one included) still gets its send
attempt in the trace, and the failing destination contributes nothing to the
delivered count (removing it leaves the count unchanged).  The dispatcher
model is a total function, so no error propagates out of it. -/
theorem c7_failure_isolation (img : Bool) (pre post : List (Int × Bool × Bool))
    (d : Int) (e : Int × Bool × Bool) (he : e ∈ pre ++ (d, false, false) :: post) :
    (SendEvent.attemptPhoto e.1 ∈ (sendToAllGroups img (pre ++ (d, false, false) :: post)).2 ∨
      SendEvent.attemptText e.1 ∈ (sendToAllGroups img (pre ++ (d, false, false) :: post)).2) ∧
    (sendToAllGroups img (pre ++ (d, false, false) :: post)).1 =
      (sendToAllGroups img (pre ++ post)).1 := by
  constructor
  · exact send_attempts_all img _ e he
  · rw [sendCount_eq, sendCount_eq]
    simp [List.countP_append, List.countP_cons]

/-- Witness for C7: three destinations, the middle one failing completely; the
failing destination is still attempted and the count equals the count without
it. -/
theorem c7_witness :
    (SendEvent.attemptPhoto 2 ∈
        (sendToAllGroups true [(1, true, true), (2, false, false), (3, true, true)]).2 ∨
      SendEvent.attemptText 2 ∈
        (sendToAllGroups true [(1, true, true), (2, false, false), (3, true, true)]).2) ∧
    (sendToAllGroups true [(1, true, true), (2, false, false), (3, true, true)]).1 =
      (sendToAllGroups true [(1, true, true), (3, true, true)]).1 :=
  c7_failure_isolation true [(1, true, true)] [(3, true, true)] 2 (2, false, false)
    (by decide)

/-- C8: the fetchers turn every transport error, non-200 status and malformed
or key-less payload into the no-content result `(none, posted)` with the
posted set untouched; the sports fetcher with no configured API key returns
no content for every response.  Both fetchers are total functions of the
response, so no exception escapes them. -/
theorem c8_fetch_errors_no_content (hash : Str → Str) (ord : List Str → List Str)
    (timeStr : Str) (poolImage : Option Str) (posted : List Str) :
    fetch_crypto_news hash ord FetchResponse.transportError timeStr poolImage posted
      = (none, posted) ∧
    (∀ status body, status ≠ 200 →
      fetch_crypto_news hash ord (FetchResponse.response status body) timeStr poolImage posted
        = (none, posted)) ∧
    fetch_crypto_news hash ord (FetchResponse.response 200 Payload.malformed)
        timeStr poolImage posted = (none, posted) ∧
    fetch_crypto_news hash ord (FetchResponse.response 200 (Payload.parsed none))
        timeStr poolImage posted = (none, posted) ∧
    (∀ resp, fetch_sports_news hash ord false resp timeStr poolImage posted
      = (none, posted)) ∧
    fetch_sports_news hash ord true FetchResponse.transportError timeStr poolImage posted
      = (none, posted) ∧
    (∀ status body, status ≠ 200 →
      fetch_sports_news hash ord true (FetchResponse.response status body) timeStr poolImage posted
        = (none, posted)) ∧
    fetch_sports_news hash ord true (FetchResponse.response 200 Payload.malformed)
        timeStr poolImage posted = (none, posted) ∧
    fetch_sports_news hash ord true (FetchResponse.response 200 (Payload.parsed none))
        timeStr poolImage posted = (none, posted) := by
  refine ⟨rfl, ?_, rfl, rfl, ?_, rfl, ?_, rfl, rfl⟩
  · intro status body hs
    simp [fetch_crypto_news, hs]
  · intro resp
    rfl
  · intro status body hs
    simp [fetch_sports_news, hs]

/-- Witness for C8: a concrete 404 crypto response and a key-less sports fetch
both yield no content. -/
theorem c8_witness :
    fetch_crypto_news wHash wOrd (FetchResponse.response 404 Payload.malformed) [] none []
      = (none, []) ∧
    fetch_sports_news wHash wOrd false FetchResponse.transportError [] none []
      = (none, []) :=
  ⟨(c8_fetch_errors_no_content wHash wOrd [] none []).2.1 404 Payload.malformed (by decide),
   (c8_fetch_errors_no_content wHash wOrd [] none []).2.2.2.2.1 FetchResponse.transportError⟩

/-- C9: a candidate that the emptiness filter rejects (empty stripped title or
description, or — when the sports check is on — the `[Removed]` marker) is
never the selected article, and the posted set is only ever extended by the
fingerprint of a selected candidate that passes the filter (so a rejected
candidate is never fingerprinted into the set). -/
theorem c9_invalid_candidates_skipped (hash : Str → Str) (ord : List Str → List Str)
    (checkRemoved : Bool) (candidates : List RawArticle) (posted : List Str)
    (a : RawArticle) (ha : a ∈ candidates) (hskip : skipsArticle checkRemoved a) :
    (scanSelect hash ord checkRemoved candidates posted).1 ≠ some a ∧
    ((scanSelect hash ord checkRemoved candidates posted).2 = posted ∨
      ∃ b, (scanSelect hash ord checkRemoved candidates posted).1 = some b ∧
        ¬ skipsArticle checkRemoved b ∧ articleHash hash b ∉ posted ∧
        (scanSelect hash ord checkRemoved candidates posted).2 =
          recordFingerprint ord posted (articleHash hash b)) := by
  rcases scanSelect_cases hash ord checkRemoved candidates posted with h | ⟨b, hb, h1, h2, h3⟩
  · rw [h]
    exact ⟨by simp, Or.inl rfl⟩
  · rw [h3]
    have hba : b ≠ a := fun hba => h1 (by rw [hba]; exact hskip)
    exact ⟨by simpa using hba, Or.inr ⟨b, rfl, h1, h2, rfl⟩⟩

/-- Witness for C9: a candidate with a whitespace-only title is passed over and
the fresh valid candidate after it is selected instead. -/
theorem c9_witness :
    (scanSelect wHash wOrd false [wArtBad, wArtB] []).1 ≠ some wArtBad ∧
    ((scanSelect wHash wOrd false [wArtBad, wArtB] []).2 = [] ∨
      ∃ b, (scanSelect wHash wOrd false [wArtBad, wArtB] []).1 = some b ∧
        ¬ skipsArticle false b ∧ articleHash wHash b ∉ [] ∧
        (scanSelect wHash wOrd false [wArtBad, wArtB] []).2 =
          recordFingerprint wOrd [] (articleHash wHash b)) :=
  c9_invalid_candidates_skipped wHash wOrd false [wArtBad, wArtB] [] wArtBad
    (by decide) (by decide)

/-- C10: the posted set after a full crypto post cycle equals the posted set
computed by the fetch phase, for every delivery outcome — in particular a cycle
whose every send fails (delivered count 0) keeps the fingerprint recorded; a
selection inserts exactly the selected article's fingerprint during the fetch
(present in the set whenever the store was below capacity); and while a
fingerprint is in the set, no scan selects an article bearing it again. -/
theorem c10_fingerprint_recorded_before_delivery (hash : Str → Str)
    (ord : List Str → List Str) (resp : FetchResponse (Option (List RawArticle)))
    (timeStr : Str) (poolImage fallbackImage : Option Str) (posted : List Str) :
    (∀ dests, (post_crypto_news hash ord resp timeStr poolImage fallbackImage posted dests).2.2 =
        (fetch_crypto_news hash ord resp timeStr poolImage posted).2) ∧
    (∀ dests : List Int,
      (post_crypto_news hash ord resp timeStr poolImage fallbackImage posted
          (dests.map (fun d => (d, false, false)))).1 = 0) ∧
    (∀ cr cs b, (scanSelect hash ord cr cs posted).1 = some b →
        (scanSelect hash ord cr cs posted).2 =
          recordFingerprint ord posted (articleHash hash b) ∧
        (posted.length < 20 → articleHash hash b ∈ (scanSelect hash ord cr cs posted).2)) ∧
    (∀ cr cs a, articleHash hash a ∈ posted →
        (scanSelect hash ord cr cs posted).1 ≠ some a) := by
  refine ⟨?_, ?_, ?_, ?_⟩
  · intro dests
    rcases hf : fetch_crypto_news hash ord resp timeStr poolImage posted with ⟨r, p'⟩
    cases r <;> simp [post_crypto_news, hf]
  · intro dests
    rcases hf : fetch_crypto_news hash ord resp timeStr poolImage posted with ⟨r, p'⟩
    cases r <;> simp [post_crypto_news, hf, sendToAllGroups_allFail]
  · intro cr cs b hsel
    obtain ⟨h1, h2, h3⟩ := scanSelect_some hash ord cr cs posted b hsel
    refine ⟨h3, fun hlen => ?_⟩
    rw [h3]
    exact recordFingerprint_mem ord posted _ hlen
  · intro cr cs a hmem hsel
    obtain ⟨h1, h2, h3⟩ := scanSelect_some hash ord cr cs posted a hsel
    exact h2 hmem

/-- Witness for C10: a concrete fetch that selects an article, dispatched to a
single always-failing destination: the posted set still equals the fetch-phase
set, the delivered count is 0, the fingerprint is in the set, and a second scan
with the fingerprint recorded no longer selects the article. -/
theorem c10_witness :
    (post_crypto_news wHash wOrd wResp [] none none [] [(5, false, false)]).2.2 =
      (fetch_crypto_news wHash wOrd wResp [] none []).2 ∧
    (post_crypto_news wHash wOrd wResp [] none none []
        ([5].map (fun d : Int => (d, false, false)))).1 = 0 ∧
    articleHash wHash wArtB ∈ (scanSelect wHash wOrd false [wArtB] []).2 ∧
    (scanSelect wHash wOrd false [wArtB] [articleHash wHash wArtB]).1 ≠ some wArtB := by
  have h := c10_fingerprint_recorded_before_delivery wHash wOrd wResp [] none none []
  have h4 := c10_fingerprint_recorded_before_delivery wHash wOrd wResp [] none none
    [articleHash wHash wArtB]
  exact ⟨h.1 [(5, false, false)], h.2.1 [5],
    (h.2.2.1 false [wArtB] wArtB (by decide)).2 (by decide),
    h4.2.2.2 false [wArtB] wArtB (by decide)⟩
